import Mathlib

/-!
Verification of the Comfyui-Dependency-isolation repository.

This file gives a shallow embedding, in Lean, of the parts of the repository
that the checked claims are about:

* `src/dependency_manager.py` — `GlobalDependencyManager`: requirement parsing,
  isolated installation, the in-memory dependency store (`installed_deps`,
  `dependency_metadata`), and `get_plugin_deps_paths`;
* `src/auto_patcher.py` — `AutoImportPatcher.patch_plugin_imports` and the
  `custom_import` replacement of `builtins.__import__`;
* `src/utils.py` — `cleanup_orphaned_deps`;
* `src/config.py` — `load_config` / `save_config`.

Modelling conventions, each noted again at the definition it concerns:

* Filesystem paths are component lists (`FsPath`); the Python code compares
  paths as strings produced by `str(...)`, and component-list equality is the
  same relation for the slash-free components used throughout.
* The filesystem is the list of currently existing directories.
* External collaborators (the pip subprocess, the md5 digest, CPython's
  baseline `__import__`, the call-stack caller attribution) are inputs to the
  embedded functions; the logic of the repository's own code is translated
  from the source.
* A Python `set` of strings keeps its elements but its iteration order is
  unspecified; it is modelled by the deduplicated insertion history together
  with an arbitrary permutation-enumeration (`SetEnum`) standing for the
  runtime's iteration order.
* Logging statements and the wall-clock timestamps stored beside metadata are
  not modelled (they carry no control flow).
-/

namespace ComfyIso

/-! ### Association lists: the model of Python `dict`

Python dicts preserve the position of an existing key on assignment and
append new keys at the end; `assocSet` reproduces that. -/

/-- Lookup in an association list (Python `d.get(k)` / `d[k]`). -/
def lookupA {α : Type} (k : String) : List (String × α) → Option α
  | [] => none
  | (k', v) :: rest => if k = k' then some v else lookupA k rest

/-- Assignment `d[k] = v` on a Python dict: overwrite in place if the key is
present, otherwise append. -/
def assocSet {α : Type} (k : String) (v : α) : List (String × α) → List (String × α)
  | [] => [(k, v)]
  | (k', v') :: rest => if k' = k then (k', v) :: rest else (k', v') :: assocSet k v rest

/-- `set.add(x)` on a Python set, acting on the deduplicated insertion
history that models the set's contents. -/
def pysetAdd {α : Type} [DecidableEq α] (x : α) (h : List α) : List α :=
  if x ∈ h then h else h ++ [x]

/-! ### Paths and the filesystem -/

/-- A filesystem path as its list of components
(`custom_nodes/… /isolated_deps/plugin/pkg_hash`). -/
abbrev FsPath := List String

/-! ### Requirement parsing (`GlobalDependencyManager._parse_requirements`) -/

/-- Characters removed by Python `str.strip()` (the ASCII ones; the lines the
parser meets contain no exotic Unicode whitespace). -/
def pyIsSpace (c : Char) : Bool :=
  c = ' ' ∨ c = '\t' ∨ c = '\n' ∨ c = '\r' ∨ c = '\x0b' ∨ c = '\x0c'

/-- Python `s.strip()`. -/
def pyStrip (s : String) : String :=
  ⟨((s.data.dropWhile pyIsSpace).reverse.dropWhile pyIsSpace).reverse⟩

/-- Python `s.startswith(pre)`. -/
def pyStartsWith (pre s : String) : Bool :=
  List.isPrefixOf pre.data s.data

/-- The part of `line.split(sep)[0]` that the parser uses: the characters
before the first occurrence of `sep` (the whole string if `sep` is absent). -/
def takeBeforeAux (sep : List Char) : List Char → List Char
  | [] => []
  | c :: rest => if sep.isPrefixOf (c :: rest) then [] else c :: takeBeforeAux sep rest

/-- `s.split(sep)[0]` for a non-empty separator. -/
def splitHead (sep : String) (s : String) : String :=
  ⟨takeBeforeAux sep.data s.data⟩

/-- `line.split('==')[0].split('>=')[0].split('<=')[0].strip()` from
`_parse_requirements`. -/
def parsePkgName (line : String) : String :=
  pyStrip (splitHead "<=" (splitHead ">=" (splitHead "==" line)))

/-- One parsed requirement: `(pkg_name, line, line_num)`. -/
structure Req where
  pkgName : String
  spec : String
  lineNum : Nat
deriving DecidableEq, Repr

/-- The enumerated loop of `_parse_requirements`, carrying the 1-based line
number: strip each line, skip blanks and `#` comments, keep the rest. -/
def parseReqLines : Nat → List String → List Req
  | _, [] => []
  | n, line :: rest =>
    let l := pyStrip line
    if l ≠ "" ∧ ¬ pyStartsWith "#" l then
      ⟨parsePkgName l, l, n⟩ :: parseReqLines (n + 1) rest
    else
      parseReqLines (n + 1) rest

/-- `GlobalDependencyManager._parse_requirements`, on the list of lines of
the requirements file. -/
def parse_requirements (lines : List String) : List Req :=
  parseReqLines 1 lines

/-! ### The installer (`GlobalDependencyManager._install_package_isolated`) -/

/-- Outcome of the external `subprocess.run` invoking pip: a completed
process with its return code, a raised `subprocess.TimeoutExpired`, or any
other raised exception. -/
inductive SubprocOutcome : Type
  | completed (returncode : Int)
  | timeoutExpired
  | raised
deriving DecidableEq

/-- Exceptions the `try` block of `_install_package_isolated` can observe. -/
inductive PipExc : Type
  | timeoutExpired
  | other
deriving DecidableEq

/-- The body of the `try` block: `subprocess.run` either returns a completed
process or raises. -/
def runPip (o : SubprocOutcome) : Except PipExc Int :=
  match o with
  | .completed rc => .ok rc
  | .timeoutExpired => .error .timeoutExpired
  | .raised => .error .other

/-- `GlobalDependencyManager._install_package_isolated(pkg_spec, target_dir,
plugin_name)`: true exactly on `returncode == 0`; both `except` clauses
return `False`, so the function is total (never raises to its caller). -/
def install_package_isolated (pkg_spec : String) (target_dir : FsPath)
    (plugin_name : String) (o : SubprocOutcome) : Bool :=
  match runPip o with
  | .ok rc => rc == 0
  | .error .timeoutExpired => false
  | .error .other => false

/-! ### The dependency store and `initialize_plugin_dependencies` -/

/-- One record of `dependency_metadata` (the `installed_time` wall-clock
field is not modelled). -/
structure DepMeta where
  package : String
  spec : String
  install_dir : FsPath
  plugin : String
deriving DecidableEq, Repr

/-- The in-memory state of `GlobalDependencyManager` that the claims touch:
`plugins` (keeping, of each `plugin_info`, the contents of its requirements
file as lines — directory, hash and timestamps play no role in the claims),
`installed_deps` (plugin → deduplicated insertion history of the Python set
of install-directory paths), `dependency_metadata`, and `sys.path`. -/
structure MgrState where
  plugins : List (String × List String)
  installed_deps : List (String × List FsPath)
  dependency_metadata : List (String × DepMeta)
  sys_path : List FsPath
deriving DecidableEq

/-- External inputs of one initialization run: `hash12` is
`hashlib.md5(spec.encode()).hexdigest()[:12]`, and `installOk` is the result
of the external pip subprocess for a given spec and target directory. -/
structure PipEnv : Type where
  hash12 : String → String
  installOk : String → FsPath → Bool

/-- `plugin_info['isolated_deps_dir'] / f"{pkg_name}_{pkg_hash}"`: the
content-addressed install directory of a requirement. -/
def reqDir (env : PipEnv) (gdeps : FsPath) (plugin : String) (r : Req) : FsPath :=
  gdeps ++ [plugin, r.pkgName ++ "_" ++ env.hash12 r.spec]

/-- `dep_key = f"{plugin_name}:{pkg_name}"`. -/
def depKey (plugin : String) (r : Req) : String :=
  plugin ++ ":" ++ r.pkgName

/-- The recording steps shared by the cache-hit and fresh-install branches of
the loop body: prepend the directory to `sys.path` if absent, add it to the
plugin's `installed_deps` set, and store the metadata record under
`dep_key`. -/
def recordDep (plugin : String) (r : Req) (dir : FsPath) (st : MgrState) : MgrState :=
  { st with
    sys_path := if dir ∈ st.sys_path then st.sys_path else dir :: st.sys_path
    installed_deps :=
      assocSet plugin (pysetAdd dir ((lookupA plugin st.installed_deps).getD []))
        st.installed_deps
    dependency_metadata :=
      assocSet (depKey plugin r) ⟨r.pkgName, r.spec, dir, plugin⟩ st.dependency_metadata }

/-- Accumulator of the requirement loop: manager state, filesystem (the list
of existing directories), `success_count`, and the number of pip subprocess
invocations made so far. -/
structure LoopAcc where
  st : MgrState
  fs : List FsPath
  succ : Nat
  calls : Nat
deriving DecidableEq

/-- One iteration of the `for pkg_name, pkg_spec, line_num in requirements`
loop: cache hit if the content-addressed directory exists, else invoke the
installer (counted in `calls`); on failure `continue` without recording. -/
def stepReq (env : PipEnv) (gdeps : FsPath) (plugin : String) (a : LoopAcc) (r : Req) :
    LoopAcc :=
  let dir := reqDir env gdeps plugin r
  if dir ∈ a.fs then
    { a with st := recordDep plugin r dir a.st, succ := a.succ + 1 }
  else if env.installOk r.spec dir then
    { st := recordDep plugin r dir a.st, fs := dir :: a.fs
      succ := a.succ + 1, calls := a.calls + 1 }
  else
    { a with calls := a.calls + 1 }

/-- `GlobalDependencyManager.initialize_plugin_dependencies(plugin_name)`:
unknown plugin → `False`; no requirements → `True` (before any mkdir);
otherwise create the plugin's isolated directory (`exist_ok`), run the
requirement loop, and return `success_count > 0`.  The final
`_save_metadata()` writes the state to disk and changes no in-memory state,
so it is not modelled.  Result: final loop accumulator and return value. -/
def initialize_plugin_dependencies (env : PipEnv) (gdeps : FsPath) (st : MgrState)
    (fs : List FsPath) (plugin : String) : LoopAcc × Bool :=
  match lookupA plugin st.plugins with
  | none => (⟨st, fs, 0, 0⟩, false)
  | some lines =>
    let reqs := parse_requirements lines
    if reqs = [] then (⟨st, fs, 0, 0⟩, true)
    else
      let pdir := gdeps ++ [plugin]
      let fs1 := if pdir ∈ fs then fs else pdir :: fs
      let a := reqs.foldl (stepReq env gdeps plugin) ⟨st, fs1, 0, 0⟩
      (a, decide (a.succ > 0))

/-! ### `get_plugin_deps_paths` and the set-iteration order -/

/-- The runtime's iteration order over a Python `set` of paths: some
enumeration of the set's elements.  CPython specifies only that iterating a
set yields each element exactly once, in an unspecified order, so any
permutation of the deduplicated insertion history is a legal behaviour. -/
structure SetEnum : Type where
  enum : List FsPath → List FsPath
  isPerm : ∀ h : List FsPath, List.Perm (enum h) h

/-- An enumeration agreeing with insertion order (one legal behaviour). -/
def idEnum : SetEnum :=
  ⟨fun h => h, fun h => List.Perm.refl h⟩

/-- The reversed enumeration (another legal behaviour). -/
def revEnum : SetEnum :=
  ⟨List.reverse, fun h => List.reverse_perm h⟩

/-- `GlobalDependencyManager.get_plugin_deps_paths(plugin_name)`:
`list(self.installed_deps.get(plugin_name, []))`, under iteration order
`E`. -/
def get_plugin_deps_paths (E : SetEnum) (st : MgrState) (plugin : String) : List FsPath :=
  E.enum ((lookupA plugin st.installed_deps).getD [])

/-! ### Orphan cleanup (`utils.cleanup_orphaned_deps`) -/

/-- `shutil.rmtree(item)`: removes the directory and every directory below
it. -/
def rmtree (p : FsPath) (fs : List FsPath) : List FsPath :=
  fs.filter (fun q => !(List.isPrefixOf p q))

/-- The `active_deps` set built by `cleanup_orphaned_deps`: the union of
`get_plugin_deps_paths(plugin)` over the registered plugins (membership in a
Python set does not depend on iteration order, so the histories are used
directly). -/
def activeDeps (st : MgrState) : List FsPath :=
  (st.plugins.map (fun pr => (lookupA pr.1 st.installed_deps).getD [])).flatten

/-- `utils.cleanup_orphaned_deps()`: iterate the immediate children of the
global `isolated_deps` directory (every modelled filesystem entry is a
directory, so the `item.is_dir()` guard always passes) and `rmtree` each one
whose path is not in `active_deps`.  Removing one child never affects its
siblings, so iterating over the initial directory listing is faithful. -/
def cleanup_orphaned_deps (gdeps : FsPath) (st : MgrState) (fs : List FsPath) :
    List FsPath :=
  let active := activeDeps st
  let children := fs.filter (fun q => decide (q.length = gdeps.length + 1) && List.isPrefixOf gdeps q)
  children.foldl (fun f item => if item ∈ active then f else rmtree item f) fs

/-! ### The import interceptor (`auto_patcher.custom_import`) -/

/-- What a directory holds for a module name: nothing; the module, importing
cleanly; or the module, raising a non-`ImportError` exception while
loading. -/
inductive ModStatus : Type
  | absent
  | found
  | broken
deriving DecidableEq

/-- The contents of the module search universe: which directory provides
which module, and how. -/
structure ImportEnv : Type where
  modAt : String → String → ModStatus

/-- Result of one call to the baseline import entry point: a module
(identified by the directory that provided it), an `ImportError`, or any
other exception. -/
inductive ImpResult : Type
  | ok (dir : String)
  | notFound
  | err
deriving DecidableEq

/-- The pre-patched `builtins.__import__` (`self._original_import_saved`):
scan the search path left to right; the first directory providing the module
decides the outcome. -/
def baseImport (e : ImportEnv) : List String → String → ImpResult
  | [], _ => .notFound
  | d :: rest, m =>
    match e.modAt d m with
    | .absent => baseImport e rest m
    | .found => .ok d
    | .broken => .err

/-- The `for deps_path in plugin_deps` loop of `custom_import`, threading
`sys.path` explicitly: copy the path, insert the directory at the front, try
the baseline import; on success restore and return, on `ImportError` restore
and continue, on any other exception restore and re-raise.  After the loop,
fall back to the baseline entry point on the (restored) path. -/
def tryIsolated (e : ImportEnv) : List String → List String → String →
    ImpResult × List String
  | [], sp, m => (baseImport e sp m, sp)
  | d :: rest, sp, m =>
    let orig := sp
    let sp1 := d :: sp
    match baseImport e sp1 m with
    | .ok r => (.ok r, orig)
    | .notFound => tryIsolated e rest orig m
    | .err => (.err, orig)

/-- `custom_import` from `AutoImportPatcher.patch_plugin_imports`.  The
caller attribution `_get_caller_plugin()` inspects the runtime call stack and
is an input here; `depsOf` is the manager accessor
`get_plugin_deps_paths(caller_plugin)`.  The Python guard
`if caller_plugin and caller_plugin in self.patched_plugins` treats the empty
string as falsy.  Returns the import result and the final `sys.path`. -/
def custom_import (e : ImportEnv) (depsOf : String → List String)
    (patched : List String) (caller : Option String) (sp : List String)
    (m : String) : ImpResult × List String :=
  match caller with
  | some p =>
    if p ≠ "" ∧ p ∈ patched then tryIsolated e (depsOf p) sp m
    else (baseImport e sp m, sp)
  | none => (baseImport e sp m, sp)

/-- Claim C2's routing rule, written from the claim's own words for
comparison with `custom_import` (refinement check): if some private
directory, in recorded order, itself resolves (provides) the module, return
the module resolved with that first satisfying directory temporarily
prepended; otherwise delegate to the baseline entry point on the unmodified
global path. -/
def specRouteC2 (e : ImportEnv) (deps : List String) (sp : List String)
    (m : String) : ImpResult × List String :=
  match deps.find? (fun d => decide (e.modAt d m = .found)) with
  | some d => (baseImport e (d :: sp) m, sp)
  | none => (baseImport e sp m, sp)

/-! ### Activation bookkeeping (`AutoImportPatcher.patch_plugin_imports`) -/

/-- A value of `builtins.__import__`: the pre-patch baseline, or one of the
replacement closures; each execution of `def custom_import(...)` creates a
new function object, modelled by a fresh generation number. -/
inductive EntryPoint : Type
  | baseline (id : Nat)
  | replacement (gen : Nat)
deriving DecidableEq

/-- The patcher state that `patch_plugin_imports` reads and writes:
`original_import` (captured at construction), the `_original_import_saved`
attribute (`none` = attribute absent), the current `builtins.__import__`,
`patched_plugins`, and a counter giving each created closure its
identity. -/
structure PatcherSt where
  original_import : EntryPoint
  original_import_saved : Option EntryPoint
  builtins_import : EntryPoint
  patched_plugins : List String
  closure_gen : Nat
deriving DecidableEq

/-- `AutoImportPatcher.patch_plugin_imports(plugin_name)` (the state
bookkeeping under the lock): no-op if already patched or if the plugin has no
recorded dependency paths; otherwise save the baseline only if not already
saved (`hasattr` guard), create a fresh `custom_import` closure, install it
as `builtins.__import__`, and add the plugin to `patched_plugins`. -/
def patch_plugin_imports (depsOf : String → List String) (st : PatcherSt)
    (p : String) : PatcherSt :=
  if p ∈ st.patched_plugins then st
  else if depsOf p = [] then st
  else
    { original_import := st.original_import
      original_import_saved :=
        match st.original_import_saved with
        | none => some st.original_import
        | some b => some b
      builtins_import := .replacement (st.closure_gen + 1)
      patched_plugins := p :: st.patched_plugins
      closure_gen := st.closure_gen + 1 }

/-! ### Configuration (`config.load_config` / `config.save_config`) -/

/-- A JSON-representable configuration value as used by `DEFAULT_CONFIG`. -/
inductive ConfigVal : Type
  | b (v : Bool)
  | n (v : Int)
  | s (v : String)
deriving DecidableEq

/-- `DEFAULT_CONFIG` from `src/config.py`. -/
def DEFAULT_CONFIG : List (String × ConfigVal) :=
  [("auto_initialize", .b true),
   ("check_updates", .b false),
   ("timeout", .n 300),
   ("mirror_url", .s ""),
   ("log_level", .s "INFO"),
   ("cleanup_orphaned", .b true),
   ("max_cache_size", .s "1GB"),
   ("enable_web_ui", .b true)]

/-- The state of `config.json` on disk: missing, unparsable, or a parsed
JSON object. -/
inductive ConfigFile : Type
  | missing
  | corrupt
  | valid (m : List (String × ConfigVal))
deriving DecidableEq

/-- Python `base.copy(); base.update(upd)`. -/
def dictUpdate (base upd : List (String × ConfigVal)) : List (String × ConfigVal) :=
  upd.foldl (fun acc kv => assocSet kv.1 kv.2 acc) base

/-- `config.load_config()`: missing file → defaults; parse failure →
defaults (warning logged); otherwise defaults merged with the file's
overrides. -/
def load_config : ConfigFile → List (String × ConfigVal)
  | .missing => DEFAULT_CONFIG
  | .corrupt => DEFAULT_CONFIG
  | .valid m => dictUpdate DEFAULT_CONFIG m

/-- `config.save_config(config)`: `json.dump` writes the mapping; reparsing
the written file yields the same mapping. -/
def save_config (c : List (String × ConfigVal)) : ConfigFile :=
  .valid c

/-! ## Association-list lemmas -/

/-- Setting a key and looking it up yields the assigned value. -/
theorem lookupA_assocSet_self {α : Type} (k : String) (v : α) (l : List (String × α)) :
    lookupA k (assocSet k v l) = some v := by
  induction l with
  | nil => simp [assocSet, lookupA]
  | cons kv rest ih =>
    obtain ⟨k', v'⟩ := kv
    by_cases h : k' = k
    · subst h
      simp [assocSet, lookupA]
    · have h2 : k ≠ k' := fun hh => h hh.symm
      simp [assocSet, lookupA, h, h2, ih]

/-- Setting one key leaves lookups of other keys unchanged. -/
theorem lookupA_assocSet_ne {α : Type} {k k' : String} (hne : k ≠ k') (v : α)
    (l : List (String × α)) : lookupA k (assocSet k' v l) = lookupA k l := by
  induction l with
  | nil => simp [assocSet, lookupA, hne]
  | cons kv rest ih =>
    obtain ⟨k'', v''⟩ := kv
    by_cases h : k'' = k'
    · subst h
      simp [assocSet, lookupA, fun hh => hne hh]
    · by_cases h2 : k = k''
      · subst h2
        simp [assocSet, lookupA, h]
      · simp [assocSet, lookupA, h, h2, ih]

/-- A key that occurs in no pair looks up to `none`. -/
theorem lookupA_eq_none {α : Type} {k : String} {l : List (String × α)}
    (h : k ∉ l.map Prod.fst) : lookupA k l = none := by
  induction l with
  | nil => rfl
  | cons kv rest ih =>
    simp only [List.map_cons, List.mem_cons] at h
    push_neg at h
    simpa [lookupA, h.1] using ih h.2

/-! ## C8 — the installer's return contract -/

/-- C8: for every package spec, target directory and plugin name,
`_install_package_isolated` returns `True` exactly when the pip subprocess
completes with exit status zero; a timeout or any other exception yields
`False`, and the `try`/`except` structure makes the function total, so it
never raises to its caller. -/
theorem install_true_iff_exit_zero (pkg_spec : String) (target_dir : FsPath)
    (plugin_name : String) (o : SubprocOutcome) :
    install_package_isolated pkg_spec target_dir plugin_name o = true ↔
      o = SubprocOutcome.completed 0 := by
  cases o with
  | completed rc => simp [install_package_isolated, runPip]
  | timeoutExpired => simp [install_package_isolated, runPip]
  | raised => simp [install_package_isolated, runPip]

/-! ## C9 — configuration round-trip -/

/-- Merging and then looking up: the override wins where present, the base
fills the rest (for an override map without duplicate keys, as produced by
JSON parsing of the saved file). -/
theorem lookupA_dictUpdate (upd : List (String × ConfigVal)) :
    ∀ (base : List (String × ConfigVal)) (k : String), (upd.map Prod.fst).Nodup →
      lookupA k (dictUpdate base upd) = (lookupA k upd).or (lookupA k base) := by
  induction upd with
  | nil =>
    intro base k _
    simp [dictUpdate, lookupA, Option.or]
  | cons kv rest ih =>
    intro base k hnd
    obtain ⟨k', v⟩ := kv
    simp only [List.map_cons, List.nodup_cons] at hnd
    have heq : dictUpdate base ((k', v) :: rest) = dictUpdate (assocSet k' v base) rest := rfl
    rw [heq, ih (assocSet k' v base) k hnd.2]
    by_cases h : k = k'
    · subst h
      have hnone : lookupA k rest = none := lookupA_eq_none hnd.1
      simp [lookupA, hnone, lookupA_assocSet_self, Option.or]
    · simp [lookupA, h, lookupA_assocSet_ne h, Option.or]

/-- C9: saving a configuration and loading it back yields, at every key, the
saved value where one was saved and the built-in default otherwise; a missing
config file loads as exactly the defaults, and so does a corrupt one. -/
theorem config_save_load_roundtrip (c : List (String × ConfigVal)) (k : String)
    (hnd : (c.map Prod.fst).Nodup) :
    lookupA k (load_config (save_config c)) = (lookupA k c).or (lookupA k DEFAULT_CONFIG) ∧
    load_config ConfigFile.missing = DEFAULT_CONFIG ∧
    load_config ConfigFile.corrupt = DEFAULT_CONFIG :=
  ⟨lookupA_dictUpdate c DEFAULT_CONFIG k hnd, rfl, rfl⟩

/-- Witness for C9 at a one-key saved configuration. -/
theorem config_save_load_roundtrip_witness :
    (([("timeout", ConfigVal.n 60)].map Prod.fst).Nodup) ∧
    lookupA "timeout" (load_config (save_config [("timeout", ConfigVal.n 60)]))
      = (lookupA "timeout" [("timeout", ConfigVal.n 60)]).or
          (lookupA "timeout" DEFAULT_CONFIG) :=
  ⟨by decide, (config_save_load_roundtrip [("timeout", ConfigVal.n 60)] "timeout" (by decide)).1⟩

/-! ## C7 — search-path restoration on every exit of `custom_import` -/

/-- The private-directory loop restores the saved `sys.path` copy on every
exit: successful return, `ImportError` retry into the next iteration and then
the fallback, and re-raised exception of any other kind. -/
theorem tryIsolated_restores (e : ImportEnv) :
    ∀ (deps sp : List String) (m : String), (tryIsolated e deps sp m).2 = sp := by
  intro deps
  induction deps with
  | nil => intro sp m; rfl
  | cons d rest ih =>
    intro sp m
    cases h : baseImport e (d :: sp) m with
    | ok r => simp [tryIsolated, h]
    | notFound => simp [tryIsolated, h, ih]
    | err => simp [tryIsolated, h]

/-- C7: on every exit path of the interceptor — returned module,
module-not-found retry with fallback, or propagated exception — the
temporary search-path insertion is undone, so the final `sys.path` equals
the one the call was entered with; in particular an exception other than
module-not-found propagates only after the saved ordering is restored. -/
theorem custom_import_restores_sys_path (e : ImportEnv)
    (depsOf : String → List String) (patched : List String)
    (caller : Option String) (sp : List String) (m : String) :
    (custom_import e depsOf patched caller sp m).2 = sp := by
  cases caller with
  | none => rfl
  | some p =>
    by_cases h : p ≠ "" ∧ p ∈ patched
    · simp [custom_import, h, tryIsolated_restores]
    · simp [custom_import, h]

/-! ## C1 — orphan cleanup destroys referenced directories -/

/-- The concrete failing state for C1: one registered plugin whose single
recorded install directory sits, as the code creates it, one level below the
plugin's own folder inside the global `isolated_deps` root. -/
def stC1 : MgrState :=
  ⟨[("pluginA", [])],
   [("pluginA", [["isolated_deps", "pluginA", "numpy_abc123"]])],
   [], []⟩

/-- The filesystem for C1's failing input. -/
def fsC1 : List FsPath :=
  [["isolated_deps"], ["isolated_deps", "pluginA"],
   ["isolated_deps", "pluginA", "numpy_abc123"]]

/-- C1 fails on the code: the recorded (referenced) directory
`isolated_deps/pluginA/numpy_abc123` is in `active_deps` and on disk, yet
running `cleanup_orphaned_deps` deletes it, because the loop inspects only
immediate children of the deps root and `isolated_deps/pluginA` — never
itself a member of any recorded path set — is `rmtree`d together with the
referenced directory below it. -/
theorem cleanup_removes_referenced_directory :
    ["isolated_deps", "pluginA", "numpy_abc123"] ∈ activeDeps stC1 ∧
    ["isolated_deps", "pluginA", "numpy_abc123"] ∈ fsC1 ∧
    ["isolated_deps", "pluginA", "numpy_abc123"] ∉
      cleanup_orphaned_deps ["isolated_deps"] stC1 fsC1 := by
  decide

/-! ## C3 — `get_plugin_deps_paths` and insertion order -/

/-- A first recorded install directory. -/
def pathA : FsPath := ["isolated_deps", "pluginA", "liba_h1"]

/-- A second recorded install directory, inserted after `pathA`. -/
def pathB : FsPath := ["isolated_deps", "pluginA", "libb_h2"]

/-- A store in which `pathA` was inserted before `pathB`. -/
def stC3 : MgrState :=
  ⟨[("pluginA", [])], [("pluginA", pysetAdd pathB (pysetAdd pathA []))], [], []⟩

/-- C3 as stated is false: `installed_deps` values are Python `set`s, whose
iteration order is unspecified, so `list(self.installed_deps.get(...))` need
not preserve insertion order — the reversed enumeration is a legal run of the
accessor and returns the two recorded directories in reversed order. -/
theorem get_deps_paths_order_counterexample :
    ¬ ∀ E : SetEnum,
        get_plugin_deps_paths E stC3 "pluginA" = pysetAdd pathB (pysetAdd pathA []) := by
  intro h
  exact absurd (h revEnum) (by decide)

/-- C3 amended: the accessor returns the recorded install directories with
duplicates suppressed — every enumeration of the stored set is a permutation
of the deduplicated insertion history, and `set.add` keeps the history
duplicate-free — but in an order the code does not fix. -/
theorem get_deps_paths_amended (E : SetEnum) (st : MgrState) (plugin : String) :
    (get_plugin_deps_paths E st plugin).Perm
        ((lookupA plugin st.installed_deps).getD []) ∧
    ∀ (x : FsPath) (h : List FsPath), h.Nodup → (pysetAdd x h).Nodup := by
  refine ⟨E.isPerm _, ?_⟩
  intro x h hnd
  unfold pysetAdd
  by_cases hx : x ∈ h
  · simpa [hx] using hnd
  · simp only [hx, if_false]
    refine List.Nodup.append hnd (by simp) ?_
    intro a ha hmem
    simp only [List.mem_singleton] at hmem
    subst hmem
    exact hx ha

/-- Witness for C3's amended statement at a concrete store. -/
theorem get_deps_paths_amended_witness :
    ([] : List FsPath).Nodup ∧
    (pysetAdd pathA []).Nodup ∧
    (get_plugin_deps_paths idEnum stC3 "pluginA").Perm
        ((lookupA "pluginA" stC3.installed_deps).getD []) :=
  ⟨by decide, (get_deps_paths_amended idEnum stC3 "pluginA").2 pathA [] (by decide),
   (get_deps_paths_amended idEnum stC3 "pluginA").1⟩

/-! ## C4 — activation bookkeeping of the import patcher -/

/-- Both example plugins have one recorded dependency directory. -/
def depsOfC4 : String → List String := fun _ => ["depdir"]

/-- State after the first effective `patch_plugin_imports` call. -/
def stC4a : PatcherSt :=
  patch_plugin_imports depsOfC4 ⟨.baseline 0, none, .baseline 0, [], 0⟩ "pluginA"

/-- State after a second effective call, for another plugin. -/
def stC4b : PatcherSt :=
  patch_plugin_imports depsOfC4 stC4a "pluginB"

/-- C4's second half fails on the code: the second enable call does add the
plugin to the intercepted set, but it does not leave the installed
replacement entry point unchanged — `builtins.__import__ = custom_import`
runs again and installs a fresh closure object. -/
theorem patch_reinstalls_entry_point :
    stC4b.patched_plugins = ["pluginB", "pluginA"] ∧
    stC4b.builtins_import ≠ stC4a.builtins_import := by
  decide

/-- C4 amended: the saved baseline is captured at the first effective
activation and never overwritten afterwards (`getD` collapses both the
first-save and the already-saved case), and every subsequent effective enable
call adds the plugin to the intercepted set while overwriting the entry point
with a fresh replacement closure — behaviourally equivalent, but a new
object, never the baseline. -/
theorem patch_amended (depsOf : String → List String) (st : PatcherSt) (p : String)
    (h1 : p ∉ st.patched_plugins) (h2 : depsOf p ≠ []) :
    (patch_plugin_imports depsOf st p).original_import_saved
        = some (st.original_import_saved.getD st.original_import) ∧
    (patch_plugin_imports depsOf st p).patched_plugins = p :: st.patched_plugins ∧
    (patch_plugin_imports depsOf st p).builtins_import
        = EntryPoint.replacement (st.closure_gen + 1) := by
  unfold patch_plugin_imports
  simp only [h1, if_false, h2, if_neg]
  cases st.original_import_saved <;> simp

/-- A patcher state in which the baseline is already saved and one plugin is
already intercepted. -/
def stC4w : PatcherSt :=
  ⟨.baseline 0, some (.baseline 0), .replacement 1, ["pluginA"], 1⟩

/-- Witness for C4's amended statement. -/
theorem patch_amended_witness :
    ("pluginB" : String) ∉ stC4w.patched_plugins ∧ depsOfC4 "pluginB" ≠ [] ∧
    (patch_plugin_imports depsOfC4 stC4w "pluginB").original_import_saved
        = some (.baseline 0) ∧
    (patch_plugin_imports depsOfC4 stC4w "pluginB").patched_plugins
        = ["pluginB", "pluginA"] :=
  ⟨by decide, by decide,
   (patch_amended depsOfC4 stC4w "pluginB" (by decide) (by decide)).1,
   (patch_amended depsOfC4 stC4w "pluginB" (by decide) (by decide)).2.1⟩

/-! ## C2 — interception routing -/

/-- The module universe for C2's counterexample: `mod` is provided both by
the shared environment (`global_site`) and by the plugin's second private
directory (`privdir1`); the first private directory does not have it. -/
def envC2 : ImportEnv :=
  ⟨fun d m =>
    if m = "mod" ∧ (d = "global_site" ∨ d = "privdir1") then .found else .absent⟩

/-- C2 as stated is false on the code: with private directories
`[privdir0, privdir1]` in recorded order and `mod` provided by `privdir1`
(the first — and only — private directory that resolves it) as well as by the
shared environment, the interceptor does not return the module resolved with
`privdir1` prepended: the very first attempt, `privdir0` prepended to the
full global path, already succeeds via the shared environment and is
returned, shadowing the isolated copy in `privdir1`. -/
theorem custom_import_not_first_satisfying :
    custom_import envC2 (fun _ => ["privdir0", "privdir1"]) ["pluginA"]
        (some "pluginA") ["global_site"] "mod"
      ≠ specRouteC2 envC2 ["privdir0", "privdir1"] ["global_site"] "mod" := by
  decide

/-- Prepending a directory that does not provide the module leaves the
baseline search result unchanged. -/
theorem baseImport_cons_absent (e : ImportEnv) {d m : String}
    (h : e.modAt d m = .absent) (sp : List String) :
    baseImport e (d :: sp) m = baseImport e sp m := by
  simp [baseImport, h]

/-- If no private directory provides the module, every attempt of the loop
behaves like the baseline on the unmodified path, and so does the final
fallback. -/
theorem tryIsolated_all_absent (e : ImportEnv) (m : String) :
    ∀ (deps sp : List String),
      (∀ d ∈ deps, e.modAt d m = .absent) →
      tryIsolated e deps sp m = (baseImport e sp m, sp) := by
  intro deps
  induction deps with
  | nil => intro sp _; rfl
  | cons d rest ih =>
    intro sp h
    have hd : e.modAt d m = .absent := h d (by simp)
    have hcons : baseImport e (d :: sp) m = baseImport e sp m :=
      baseImport_cons_absent e hd sp
    have ih' := ih sp (fun d' h' => h d' (List.mem_cons_of_mem _ h'))
    cases hb : baseImport e sp m with
    | ok r => simp [tryIsolated, hcons, hb]
    | notFound => simp [tryIsolated, hcons, hb, ih']
    | err => simp [tryIsolated, hcons, hb]

/-- When the global path does not resolve the module at all, the loop is
exactly a baseline search over the private directories in recorded order. -/
theorem tryIsolated_global_notFound (e : ImportEnv) (m : String) :
    ∀ (deps sp : List String),
      baseImport e sp m = .notFound →
      tryIsolated e deps sp m = (baseImport e deps m, sp) := by
  intro deps
  induction deps with
  | nil =>
    intro sp h
    simp [tryIsolated, baseImport, h]
  | cons d rest ih =>
    intro sp h
    cases hd : e.modAt d m with
    | absent =>
      have hcons : baseImport e (d :: sp) m = baseImport e sp m :=
        baseImport_cons_absent e hd sp
      simp [tryIsolated, hcons, h, ih sp h, baseImport, hd]
    | found => simp [tryIsolated, baseImport, hd]
    | broken => simp [tryIsolated, baseImport, hd]

/-- C2 amended: for an intercepted caller, (1) if no private directory of the
plugin provides the module, the call behaves exactly like the baseline entry
point on the unmodified global search path; (2) if the global path does not
provide the module, the interceptor returns precisely the result of searching
the plugin's private directories in recorded order (so the first private
directory containing the module wins).  When the shared environment does
provide the module, the first attempt already succeeds — possibly resolving
from the shared environment rather than from a later private directory, as
the counterexample shows. -/
theorem custom_import_amended (e : ImportEnv) (depsOf : String → List String)
    (patched : List String) (p : String) (sp : List String) (m : String)
    (hp : p ≠ "" ∧ p ∈ patched) :
    ((∀ d ∈ depsOf p, e.modAt d m = .absent) →
      custom_import e depsOf patched (some p) sp m = (baseImport e sp m, sp)) ∧
    (baseImport e sp m = .notFound →
      custom_import e depsOf patched (some p) sp m = (baseImport e (depsOf p) m, sp)) := by
  have hred : custom_import e depsOf patched (some p) sp m = tryIsolated e (depsOf p) sp m := by
    simp [custom_import, hp]
  exact ⟨fun h => hred.trans (tryIsolated_all_absent e m (depsOf p) sp h),
         fun h => hred.trans (tryIsolated_global_notFound e m (depsOf p) sp h)⟩

/-- A module universe in which nothing provides anything. -/
def envC2w : ImportEnv := ⟨fun _ _ => .absent⟩

/-- Witness for C2's amended statement: module in no private directory and
not in the shared environment — both amended clauses apply. -/
theorem custom_import_amended_witness :
    (("pluginA" : String) ≠ "" ∧ ("pluginA" : String) ∈ ["pluginA"]) ∧
    (∀ d ∈ ["privdir0"], envC2w.modAt d "mod" = .absent) ∧
    baseImport envC2w ["global_site"] "mod" = .notFound ∧
    custom_import envC2w (fun _ => ["privdir0"]) ["pluginA"] (some "pluginA")
        ["global_site"] "mod" = (baseImport envC2w ["global_site"] "mod", ["global_site"]) ∧
    custom_import envC2w (fun _ => ["privdir0"]) ["pluginA"] (some "pluginA")
        ["global_site"] "mod" = (baseImport envC2w ["privdir0"] "mod", ["global_site"]) :=
  ⟨⟨by decide, by decide⟩, by decide, by decide,
   (custom_import_amended envC2w (fun _ => ["privdir0"]) ["pluginA"] "pluginA"
      ["global_site"] "mod" ⟨by decide, by decide⟩).1 (by decide),
   (custom_import_amended envC2w (fun _ => ["privdir0"]) ["pluginA"] "pluginA"
      ["global_site"] "mod" ⟨by decide, by decide⟩).2 (by decide)⟩

/-! ## C5 — second run is a pure cache hit -/

/-- If every requirement's content-addressed directory already exists, each
loop iteration takes the cache-hit branch: no installer call, the filesystem
is untouched, and every requirement counts as a success. -/
theorem stepList_all_cached (env : PipEnv) (gdeps : FsPath) (plugin : String) :
    ∀ (reqs : List Req) (st : MgrState) (fsC : List FsPath) (s c : Nat),
      (∀ r ∈ reqs, reqDir env gdeps plugin r ∈ fsC) →
      (reqs.foldl (stepReq env gdeps plugin) ⟨st, fsC, s, c⟩).calls = c ∧
      (reqs.foldl (stepReq env gdeps plugin) ⟨st, fsC, s, c⟩).succ = s + reqs.length := by
  intro reqs
  induction reqs with
  | nil => intro st fsC s c _; exact ⟨rfl, by simp⟩
  | cons r rest ih =>
    intro st fsC s c h
    have hr : reqDir env gdeps plugin r ∈ fsC := h r (by simp)
    have hstep : stepReq env gdeps plugin ⟨st, fsC, s, c⟩ r
        = ⟨recordDep plugin r (reqDir env gdeps plugin r) st, fsC, s + 1, c⟩ := by
      simp [stepReq, hr]
    rw [List.foldl_cons, hstep]
    have hrec := ih (recordDep plugin r (reqDir env gdeps plugin r) st) fsC (s + 1) c
      (fun r' h' => h r' (List.mem_cons_of_mem _ h'))
    exact ⟨hrec.1, by rw [hrec.2]; simp; omega⟩

/-- C5: for a registered plugin all of whose content-addressed install
directories already exist, a (second) call to
`initialize_plugin_dependencies` performs zero installer subprocess
invocations and returns success — every requirement is a cache hit. -/
theorem second_init_is_pure_cache_hit (env : PipEnv) (gdeps : FsPath) (st : MgrState)
    (fs : List FsPath) (plugin : String) (lines : List String)
    (hreg : lookupA plugin st.plugins = some lines)
    (hcached : ∀ r ∈ parse_requirements lines, reqDir env gdeps plugin r ∈ fs) :
    (initialize_plugin_dependencies env gdeps st fs plugin).1.calls = 0 ∧
    (initialize_plugin_dependencies env gdeps st fs plugin).2 = true := by
  unfold initialize_plugin_dependencies
  rw [hreg]
  by_cases hemp : parse_requirements lines = []
  · simp [hemp]
  · simp only [hemp, if_false]
    have hc1 : ∀ r ∈ parse_requirements lines,
        reqDir env gdeps plugin r ∈
          (if (gdeps ++ [plugin]) ∈ fs then fs else (gdeps ++ [plugin]) :: fs) := by
      intro r hrr
      by_cases hp : (gdeps ++ [plugin]) ∈ fs
      · simpa [hp] using hcached r hrr
      · simp only [hp, if_false, List.mem_cons]
        exact Or.inr (hcached r hrr)
    have h := stepList_all_cached env gdeps plugin (parse_requirements lines) st
      (if (gdeps ++ [plugin]) ∈ fs then fs else (gdeps ++ [plugin]) :: fs) 0 0 hc1
    have hlen : 0 < (parse_requirements lines).length := List.length_pos.mpr hemp
    exact ⟨h.1, by simp [h.2]; omega⟩

/-- Installer environment for C5's witness: a fixed digest and an installer
that always fails — it must never be consulted. -/
def envC5 : PipEnv := ⟨fun _ => "h", fun _ _ => false⟩

/-- Manager state for C5's witness. -/
def stC5 : MgrState := ⟨[("pluginA", ["numpy==1.0"])], [], [], []⟩

/-- Witness for C5 at a one-requirement plugin whose install directory
already exists. -/
theorem second_init_is_pure_cache_hit_witness :
    lookupA "pluginA" stC5.plugins = some ["numpy==1.0"] ∧
    (∀ r ∈ parse_requirements ["numpy==1.0"],
       reqDir envC5 ["isolated_deps"] "pluginA" r ∈ [["isolated_deps", "pluginA", "numpy_h"]]) ∧
    (initialize_plugin_dependencies envC5 ["isolated_deps"] stC5
        [["isolated_deps", "pluginA", "numpy_h"]] "pluginA").1.calls = 0 ∧
    (initialize_plugin_dependencies envC5 ["isolated_deps"] stC5
        [["isolated_deps", "pluginA", "numpy_h"]] "pluginA").2 = true :=
  ⟨by decide, by decide,
   (second_init_is_pure_cache_hit envC5 ["isolated_deps"] stC5
      [["isolated_deps", "pluginA", "numpy_h"]] "pluginA" ["numpy==1.0"]
      (by decide) (by decide)).1,
   (second_init_is_pure_cache_hit envC5 ["isolated_deps"] stC5
      [["isolated_deps", "pluginA", "numpy_h"]] "pluginA" ["numpy==1.0"]
      (by decide) (by decide)).2⟩

/-! ## The requirement loop in general: what gets recorded

Shared machinery for C6 and C10.  `reqSucceeds` says whether a requirement
ends up recorded on a run that starts from reference filesystem `fs0`:
either its content-addressed directory already exists (cache hit) or the
installer reports success for it. -/

/-- Whether one requirement succeeds (cache hit or successful install),
relative to a reference filesystem. -/
def reqSucceeds (env : PipEnv) (gdeps : FsPath) (plugin : String) (fs0 : List FsPath)
    (r : Req) : Bool :=
  decide (reqDir env gdeps plugin r ∈ fs0) || env.installOk r.spec (reqDir env gdeps plugin r)

/-- The metadata writes performed for a list of recorded requirements, in
order. -/
def metaFold (env : PipEnv) (gdeps : FsPath) (plugin : String) (rs : List Req)
    (md : List (String × DepMeta)) : List (String × DepMeta) :=
  rs.foldl
    (fun m r => assocSet (depKey plugin r) ⟨r.pkgName, r.spec, reqDir env gdeps plugin r, plugin⟩ m)
    md

/-- Folding metadata writes whose keys all differ from `k` leaves the lookup
of `k` unchanged. -/
theorem lookupA_metaFold_ne (env : PipEnv) (gdeps : FsPath) (plugin : String) (k : String) :
    ∀ (rs : List Req) (md : List (String × DepMeta)),
      (∀ r ∈ rs, depKey plugin r ≠ k) →
      lookupA k (metaFold env gdeps plugin rs md) = lookupA k md := by
  intro rs
  induction rs with
  | nil => intro md _; rfl
  | cons r rest ih =>
    intro md h
    have hne : k ≠ depKey plugin r := fun he => h r (List.mem_cons_self r rest) he.symm
    calc lookupA k (metaFold env gdeps plugin (r :: rest) md)
        = lookupA k (metaFold env gdeps plugin rest
            (assocSet (depKey plugin r) ⟨r.pkgName, r.spec, reqDir env gdeps plugin r, plugin⟩ md)) := rfl
      _ = lookupA k (assocSet (depKey plugin r)
            ⟨r.pkgName, r.spec, reqDir env gdeps plugin r, plugin⟩ md) :=
          ih _ (fun r' h' => h r' (List.mem_cons_of_mem _ h'))
      _ = lookupA k md := lookupA_assocSet_ne hne _ md

/-- Metadata writes never erase a key that is already present. -/
theorem lookupA_metaFold_isSome (env : PipEnv) (gdeps : FsPath) (plugin : String)
    (k : String) :
    ∀ (rs : List Req) (md : List (String × DepMeta)),
      (lookupA k md).isSome = true →
      (lookupA k (metaFold env gdeps plugin rs md)).isSome = true := by
  intro rs
  induction rs with
  | nil => intro md h; exact h
  | cons r rest ih =>
    intro md h
    apply ih
    by_cases hk : k = depKey plugin r
    · subst hk
      rw [lookupA_assocSet_self]
      rfl
    · rw [lookupA_assocSet_ne hk]
      exact h

/-- After folding the metadata writes of a list containing a requirement with
key `k`, a lookup of `k` finds a record. -/
theorem lookupA_metaFold_mem (env : PipEnv) (gdeps : FsPath) (plugin : String)
    (k : String) :
    ∀ (rs : List Req) (md : List (String × DepMeta)),
      (∃ r ∈ rs, depKey plugin r = k) →
      (lookupA k (metaFold env gdeps plugin rs md)).isSome = true := by
  intro rs
  induction rs with
  | nil => intro md h; simp at h
  | cons r rest ih =>
    intro md h
    rcases h with ⟨r', hr', hk⟩
    rcases List.mem_cons.mp hr' with he | he
    · subst he
      subst hk
      have hstep : metaFold env gdeps plugin (r' :: rest) md
          = metaFold env gdeps plugin rest
              (assocSet (depKey plugin r')
                ⟨r'.pkgName, r'.spec, reqDir env gdeps plugin r', plugin⟩ md) := rfl
      rw [hstep]
      apply lookupA_metaFold_isSome
      rw [lookupA_assocSet_self]
      rfl
    · exact ih _ ⟨r', he, hk⟩

/-- A requirement's install directory is never the plugin's own isolated
directory (it is one level deeper). -/
theorem reqDir_ne_pdir (env : PipEnv) (gdeps : FsPath) (plugin : String) (r : Req) :
    reqDir env gdeps plugin r ≠ gdeps ++ [plugin] := by
  intro h
  have hlen := congrArg List.length h
  simp [reqDir] at hlen

/-- Membership of a requirement directory in the filesystem is unaffected by
the `mkdir(exist_ok=True)` of the plugin's isolated directory. -/
theorem mem_fs1_iff (env : PipEnv) (gdeps : FsPath) (plugin : String)
    (fs : List FsPath) (r : Req) :
    (reqDir env gdeps plugin r ∈
        (if (gdeps ++ [plugin]) ∈ fs then fs else (gdeps ++ [plugin]) :: fs))
      ↔ reqDir env gdeps plugin r ∈ fs := by
  by_cases hp : (gdeps ++ [plugin]) ∈ fs
  · simp [hp]
  · simp [hp, List.mem_cons, reqDir_ne_pdir env gdeps plugin r]

/-- Characterization of the requirement loop: starting from a filesystem
that agrees with the reference `fs0` on every requirement directory, with
pairwise-distinct requirement directories none of which is yet recorded, the
loop appends to the plugin's recorded path set exactly the directories of the
succeeding requirements in order, performs exactly their metadata writes, and
counts exactly the successes. -/
theorem stepList_spec (env : PipEnv) (gdeps : FsPath) (plugin : String)
    (fs0 : List FsPath) :
    ∀ (reqs : List Req) (st : MgrState) (fsC : List FsPath) (s c : Nat),
      (∀ r ∈ reqs, (reqDir env gdeps plugin r ∈ fsC ↔ reqDir env gdeps plugin r ∈ fs0)) →
      reqs.Pairwise (fun a b => reqDir env gdeps plugin a ≠ reqDir env gdeps plugin b) →
      (∀ r ∈ reqs, reqDir env gdeps plugin r ∉ (lookupA plugin st.installed_deps).getD []) →
      ((lookupA plugin
            ((reqs.foldl (stepReq env gdeps plugin) ⟨st, fsC, s, c⟩).st.installed_deps)).getD []
          = (lookupA plugin st.installed_deps).getD []
            ++ (reqs.filter (reqSucceeds env gdeps plugin fs0)).map (reqDir env gdeps plugin)) ∧
      ((reqs.foldl (stepReq env gdeps plugin) ⟨st, fsC, s, c⟩).st.dependency_metadata
          = metaFold env gdeps plugin (reqs.filter (reqSucceeds env gdeps plugin fs0))
              st.dependency_metadata) ∧
      ((reqs.foldl (stepReq env gdeps plugin) ⟨st, fsC, s, c⟩).succ
          = s + reqs.countP (reqSucceeds env gdeps plugin fs0)) := by
  intro reqs
  induction reqs with
  | nil =>
    intro st fsC s c _ _ _
    exact ⟨by simp, by simp [metaFold], by simp⟩
  | cons r rest ih =>
    intro st fsC s c hiff hpw hnot
    obtain ⟨hpwhead, hpwrest⟩ := List.pairwise_cons.mp hpw
    have hiffr := hiff r (List.mem_cons_self r rest)
    have hnotr := hnot r (List.mem_cons_self r rest)
    by_cases hmem : reqDir env gdeps plugin r ∈ fsC
    · -- cache-hit branch
      have hsucc : reqSucceeds env gdeps plugin fs0 r = true := by
        simp [reqSucceeds, hiffr.mp hmem]
      have hstep : stepReq env gdeps plugin ⟨st, fsC, s, c⟩ r
          = ⟨recordDep plugin r (reqDir env gdeps plugin r) st, fsC, s + 1, c⟩ := by
        simp [stepReq, hmem]
      have hhist : (lookupA plugin
            (recordDep plugin r (reqDir env gdeps plugin r) st).installed_deps).getD []
          = (lookupA plugin st.installed_deps).getD [] ++ [reqDir env gdeps plugin r] := by
        simp [recordDep, lookupA_assocSet_self, pysetAdd, hnotr]
      have ihres := ih (recordDep plugin r (reqDir env gdeps plugin r) st) fsC (s + 1) c
        (fun r' h' => hiff r' (List.mem_cons_of_mem _ h'))
        hpwrest
        (by
          intro r' h'
          rw [hhist]
          simp only [List.mem_append, List.mem_singleton]
          push_neg
          exact ⟨hnot r' (List.mem_cons_of_mem _ h'), fun he => hpwhead r' h' he.symm⟩)
      rw [List.foldl_cons, hstep]
      refine ⟨?_, ?_, ?_⟩
      · rw [ihres.1, hhist]
        simp [hsucc, List.filter_cons, List.append_assoc]
      · rw [ihres.2.1]
        simp [hsucc, List.filter_cons, metaFold, recordDep]
      · rw [ihres.2.2]
        simp [hsucc, List.countP_cons]
        omega
    · cases hinst : env.installOk r.spec (reqDir env gdeps plugin r) with
      | true =>
        -- fresh-install branch
        have hsucc : reqSucceeds env gdeps plugin fs0 r = true := by
          simp [reqSucceeds, hinst]
        have hstep : stepReq env gdeps plugin ⟨st, fsC, s, c⟩ r
            = ⟨recordDep plugin r (reqDir env gdeps plugin r) st,
               reqDir env gdeps plugin r :: fsC, s + 1, c + 1⟩ := by
          simp [stepReq, hmem, hinst]
        have hhist : (lookupA plugin
              (recordDep plugin r (reqDir env gdeps plugin r) st).installed_deps).getD []
            = (lookupA plugin st.installed_deps).getD [] ++ [reqDir env gdeps plugin r] := by
          simp [recordDep, lookupA_assocSet_self, pysetAdd, hnotr]
        have ihres := ih (recordDep plugin r (reqDir env gdeps plugin r) st)
          (reqDir env gdeps plugin r :: fsC) (s + 1) (c + 1)
          (by
            intro r' h'
            have hne : reqDir env gdeps plugin r' ≠ reqDir env gdeps plugin r :=
              fun he => hpwhead r' h' he.symm
            simp only [List.mem_cons, hne, false_or]
            exact hiff r' (List.mem_cons_of_mem _ h'))
          hpwrest
          (by
            intro r' h'
            rw [hhist]
            simp only [List.mem_append, List.mem_singleton]
            push_neg
            exact ⟨hnot r' (List.mem_cons_of_mem _ h'), fun he => hpwhead r' h' he.symm⟩)
        rw [List.foldl_cons, hstep]
        refine ⟨?_, ?_, ?_⟩
        · rw [ihres.1, hhist]
          simp [hsucc, List.filter_cons, List.append_assoc]
        · rw [ihres.2.1]
          simp [hsucc, List.filter_cons, metaFold, recordDep]
        · rw [ihres.2.2]
          simp [hsucc, List.countP_cons]
          omega
      | false =>
        -- failed install: continue, nothing recorded
        have hnotfs0 : reqDir env gdeps plugin r ∉ fs0 := fun h0 => hmem (hiffr.mpr h0)
        have hsucc : reqSucceeds env gdeps plugin fs0 r = false := by
          simp [reqSucceeds, hinst, hnotfs0]
        have hstep : stepReq env gdeps plugin ⟨st, fsC, s, c⟩ r = ⟨st, fsC, s, c + 1⟩ := by
          simp [stepReq, hmem, hinst]
        have ihres := ih st fsC s (c + 1)
          (fun r' h' => hiff r' (List.mem_cons_of_mem _ h'))
          hpwrest
          (fun r' h' => hnot r' (List.mem_cons_of_mem _ h'))
        rw [List.foldl_cons, hstep]
        refine ⟨?_, ?_, ?_⟩
        · rw [ihres.1]
          simp [hsucc, List.filter_cons]
        · rw [ihres.2.1]
          simp [hsucc, List.filter_cons]
        · rw [ihres.2.2]
          simp [hsucc, List.countP_cons]

/-- Appending to a fixed string on the left is injective. -/
theorem string_append_cancel_left (a : String) {b c : String} (h : a ++ b = a ++ c) :
    b = c := by
  have h2 := congrArg String.data h
  rw [String.data_append, String.data_append] at h2
  exact String.ext (List.append_cancel_left h2)

/-- Distinct package names give distinct `dep_key`s (for one plugin). -/
theorem depKey_inj (plugin : String) {r1 r2 : Req} (h : r1.pkgName ≠ r2.pkgName) :
    depKey plugin r1 ≠ depKey plugin r2 := by
  intro he
  unfold depKey at he
  exact h (string_append_cancel_left (plugin ++ ":") he)

/-- Two requirements of the same package whose specifier digests differ get
distinct content-addressed install directories. -/
theorem reqDir_ne_of_hash_ne (env : PipEnv) (gdeps : FsPath) (plugin : String)
    {r1 r2 : Req} (hp : r1.pkgName = r2.pkgName)
    (hh : env.hash12 r1.spec ≠ env.hash12 r2.spec) :
    reqDir env gdeps plugin r1 ≠ reqDir env gdeps plugin r2 := by
  intro he
  apply hh
  unfold reqDir at he
  have h2 := List.append_cancel_left he
  have h3 : r1.pkgName ++ "_" ++ env.hash12 r1.spec
      = r2.pkgName ++ "_" ++ env.hash12 r2.spec := by
    simpa using h2
  rw [← hp] at h3
  exact string_append_cancel_left (r1.pkgName ++ "_") h3

/-! ## C6 — partial success records only the succeeded requirements -/

/-- C6: for a registered plugin whose requirements have pairwise-distinct
install directories and package names, starting from a store with no entries
for this plugin, when at least one requirement succeeds (cache hit or
successful install) and at least one fails, `initialize_plugin_dependencies`
still returns success, and afterwards the store holds a path entry and a
metadata record for every succeeded requirement and none for any failed
one. -/
theorem partial_success_records_only_succeeded
    (env : PipEnv) (gdeps : FsPath) (st : MgrState) (fs : List FsPath)
    (plugin : String) (lines : List String) (out : LoopAcc × Bool)
    (hout : out = initialize_plugin_dependencies env gdeps st fs plugin)
    (hreg : lookupA plugin st.plugins = some lines)
    (hdir : (parse_requirements lines).Pairwise
        (fun a b => reqDir env gdeps plugin a ≠ reqDir env gdeps plugin b))
    (hpkg : (parse_requirements lines).Pairwise (fun a b => a.pkgName ≠ b.pkgName))
    (hdeps0 : lookupA plugin st.installed_deps = none)
    (hmeta0 : ∀ r ∈ parse_requirements lines,
        lookupA (depKey plugin r) st.dependency_metadata = none)
    (hsome : ∃ r ∈ parse_requirements lines, reqSucceeds env gdeps plugin fs r = true)
    (hfail : ∃ r ∈ parse_requirements lines, reqSucceeds env gdeps plugin fs r = false) :
    out.2 = true ∧
    (∀ r ∈ parse_requirements lines, reqSucceeds env gdeps plugin fs r = true →
        reqDir env gdeps plugin r ∈ (lookupA plugin out.1.st.installed_deps).getD [] ∧
        (lookupA (depKey plugin r) out.1.st.dependency_metadata).isSome = true) ∧
    (∀ r ∈ parse_requirements lines, reqSucceeds env gdeps plugin fs r = false →
        reqDir env gdeps plugin r ∉ (lookupA plugin out.1.st.installed_deps).getD [] ∧
        lookupA (depKey plugin r) out.1.st.dependency_metadata = none) := by
  have hne : parse_requirements lines ≠ [] := by
    rcases hsome with ⟨r, hr, _⟩
    intro h
    rw [h] at hr
    exact absurd hr (List.not_mem_nil r)
  have hout2 : out = ((parse_requirements lines).foldl (stepReq env gdeps plugin)
      ⟨st, (if (gdeps ++ [plugin]) ∈ fs then fs else (gdeps ++ [plugin]) :: fs), 0, 0⟩,
      decide (((parse_requirements lines).foldl (stepReq env gdeps plugin)
        ⟨st, (if (gdeps ++ [plugin]) ∈ fs then fs else (gdeps ++ [plugin]) :: fs), 0, 0⟩).succ > 0)) := by
    rw [hout]
    unfold initialize_plugin_dependencies
    rw [hreg]
    dsimp only
    rw [if_neg hne]
  obtain ⟨h1, h2, h3⟩ := stepList_spec env gdeps plugin fs (parse_requirements lines) st
    (if (gdeps ++ [plugin]) ∈ fs then fs else (gdeps ++ [plugin]) :: fs) 0 0
    (fun r _ => mem_fs1_iff env gdeps plugin fs r)
    hdir
    (by intro r _; simp [hdeps0])
  have hsymmDir : Symmetric (fun a b => reqDir env gdeps plugin a ≠ reqDir env gdeps plugin b) :=
    fun _ _ h => Ne.symm h
  have hsymmPkg : Symmetric (fun (a b : Req) => a.pkgName ≠ b.pkgName) :=
    fun _ _ h => Ne.symm h
  refine ⟨?_, ?_, ?_⟩
  · -- the call returns success
    rw [hout2]
    have hpos : 0 < (parse_requirements lines).countP (reqSucceeds env gdeps plugin fs) := by
      rcases hsome with ⟨r, hr, hs⟩
      exact List.countP_pos_iff.mpr ⟨r, hr, hs⟩
    simp only [decide_eq_true_eq, h3]
    omega
  · -- succeeded requirements are recorded
    intro r hr hs
    rw [hout2]
    constructor
    · simp only [h1, hdeps0, Option.getD_none, List.nil_append]
      exact List.mem_map_of_mem _ (List.mem_filter.mpr ⟨hr, hs⟩)
    · rw [h2]
      exact lookupA_metaFold_mem env gdeps plugin _ _ _
        ⟨r, List.mem_filter.mpr ⟨hr, hs⟩, rfl⟩
  · -- failed requirements are not recorded
    intro r hr hs
    rw [hout2]
    constructor
    · simp only [h1, hdeps0, Option.getD_none, List.nil_append]
      intro hmem
      rcases List.mem_map.mp hmem with ⟨r', hr'f, he⟩
      obtain ⟨hr'mem, hr's⟩ := List.mem_filter.mp hr'f
      have hne' : r' ≠ r := by
        intro hh
        rw [hh, hs] at hr's
        exact Bool.false_ne_true hr's
      exact List.Pairwise.forall hsymmDir hdir hr'mem hr hne' he
    · rw [h2]
      rw [lookupA_metaFold_ne env gdeps plugin _ _ _ ?_]
      · exact hmeta0 r hr
      · intro r' hr'f
        obtain ⟨hr'mem, hr's⟩ := List.mem_filter.mp hr'f
        have hne' : r' ≠ r := by
          intro hh
          rw [hh, hs] at hr's
          exact Bool.false_ne_true hr's
        exact depKey_inj plugin (List.Pairwise.forall hsymmPkg hpkg hr'mem hr hne')

/-- Installer environment for C6's witness: identity digest; only
`liba==1` installs successfully. -/
def envC6 : PipEnv := ⟨fun s => s, fun spec _ => spec == "liba==1"⟩

/-- Manager state for C6's witness: one plugin declaring a succeeding and a
failing requirement. -/
def stC6 : MgrState := ⟨[("pluginA", ["liba==1", "libb==2"])], [], [], []⟩

/-- Witness for C6: with `liba==1` succeeding and `libb==2` failing, the
call returns success, records `liba`'s directory, and leaves no entry for
`libb`. -/
theorem partial_success_witness :
    lookupA "pluginA" stC6.plugins = some ["liba==1", "libb==2"] ∧
    (parse_requirements ["liba==1", "libb==2"]).Pairwise
        (fun a b => reqDir envC6 ["isolated_deps"] "pluginA" a
          ≠ reqDir envC6 ["isolated_deps"] "pluginA" b) ∧
    (parse_requirements ["liba==1", "libb==2"]).Pairwise (fun a b => a.pkgName ≠ b.pkgName) ∧
    (∃ r ∈ parse_requirements ["liba==1", "libb==2"],
        reqSucceeds envC6 ["isolated_deps"] "pluginA" [] r = true) ∧
    (∃ r ∈ parse_requirements ["liba==1", "libb==2"],
        reqSucceeds envC6 ["isolated_deps"] "pluginA" [] r = false) ∧
    (initialize_plugin_dependencies envC6 ["isolated_deps"] stC6 [] "pluginA").2 = true ∧
    lookupA "pluginA:libb"
        (initialize_plugin_dependencies envC6 ["isolated_deps"] stC6 [] "pluginA").1.st.dependency_metadata
      = none :=
  ⟨by decide, by decide, by decide, by decide, by decide,
   (partial_success_records_only_succeeded envC6 ["isolated_deps"] stC6 [] "pluginA"
      ["liba==1", "libb==2"] _ rfl (by decide) (by decide) (by decide) (by decide)
      (by decide) (by decide) (by decide)).1,
   ((partial_success_records_only_succeeded envC6 ["isolated_deps"] stC6 [] "pluginA"
      ["liba==1", "libb==2"] _ rfl (by decide) (by decide) (by decide) (by decide)
      (by decide) (by decide) (by decide)).2.2 ⟨"libb", "libb==2", 2⟩ (by decide) (by decide)).2⟩

/-! ## C10 — same package on two lines with distinct specifiers -/

/-- C10: when a plugin's declaration file parses to exactly two requirements
carrying the same package name with distinct specifiers (and distinct
digests), both installing successfully into a fresh store, then after
`initialize_plugin_dependencies` the metadata map holds exactly one record
under the shared `plugin:package` key — that of the later line, which
overwrote the earlier — while the plugin's recorded path set contains both
(distinct) content-addressed install directories, in insertion order. -/
theorem duplicate_package_last_line_wins
    (env : PipEnv) (gdeps : FsPath) (st : MgrState) (fs : List FsPath)
    (plugin pkg s1 s2 : String) (lines : List String) (out : LoopAcc × Bool)
    (hout : out = initialize_plugin_dependencies env gdeps st fs plugin)
    (hreg : lookupA plugin st.plugins = some lines)
    (hparse : parse_requirements lines = [⟨pkg, s1, 1⟩, ⟨pkg, s2, 2⟩])
    (hs : s1 ≠ s2)
    (hh : env.hash12 s1 ≠ env.hash12 s2)
    (hdeps0 : lookupA plugin st.installed_deps = none)
    (hmeta0 : st.dependency_metadata = [])
    (hi1 : env.installOk s1 (reqDir env gdeps plugin ⟨pkg, s1, 1⟩) = true)
    (hi2 : env.installOk s2 (reqDir env gdeps plugin ⟨pkg, s2, 2⟩) = true) :
    out.1.st.dependency_metadata
        = [(depKey plugin ⟨pkg, s2, 2⟩,
            ⟨pkg, s2, reqDir env gdeps plugin ⟨pkg, s2, 2⟩, plugin⟩)] ∧
    (lookupA plugin out.1.st.installed_deps).getD []
        = [reqDir env gdeps plugin ⟨pkg, s1, 1⟩, reqDir env gdeps plugin ⟨pkg, s2, 2⟩] ∧
    reqDir env gdeps plugin ⟨pkg, s1, 1⟩ ≠ reqDir env gdeps plugin ⟨pkg, s2, 2⟩ := by
  have hdne : reqDir env gdeps plugin ⟨pkg, s1, 1⟩ ≠ reqDir env gdeps plugin ⟨pkg, s2, 2⟩ :=
    reqDir_ne_of_hash_ne env gdeps plugin rfl hh
  have hpw : (parse_requirements lines).Pairwise
      (fun a b => reqDir env gdeps plugin a ≠ reqDir env gdeps plugin b) := by
    rw [hparse]
    refine List.Pairwise.cons ?_ (by simp)
    intro b hb
    rw [List.mem_singleton] at hb
    subst hb
    exact hdne
  have hne : parse_requirements lines ≠ [] := by
    rw [hparse]
    exact List.cons_ne_nil _ _
  have hout2 : out = ((parse_requirements lines).foldl (stepReq env gdeps plugin)
      ⟨st, (if (gdeps ++ [plugin]) ∈ fs then fs else (gdeps ++ [plugin]) :: fs), 0, 0⟩,
      decide (((parse_requirements lines).foldl (stepReq env gdeps plugin)
        ⟨st, (if (gdeps ++ [plugin]) ∈ fs then fs else (gdeps ++ [plugin]) :: fs), 0, 0⟩).succ > 0)) := by
    rw [hout]
    unfold initialize_plugin_dependencies
    rw [hreg]
    dsimp only
    rw [if_neg hne]
  obtain ⟨h1, h2, _⟩ := stepList_spec env gdeps plugin fs (parse_requirements lines) st
    (if (gdeps ++ [plugin]) ∈ fs then fs else (gdeps ++ [plugin]) :: fs) 0 0
    (fun r _ => mem_fs1_iff env gdeps plugin fs r)
    hpw
    (by intro r _; simp [hdeps0])
  have hsucc1 : reqSucceeds env gdeps plugin fs ⟨pkg, s1, 1⟩ = true := by
    simp [reqSucceeds, hi1]
  have hsucc2 : reqSucceeds env gdeps plugin fs ⟨pkg, s2, 2⟩ = true := by
    simp [reqSucceeds, hi2]
  have hfilter : (parse_requirements lines).filter (reqSucceeds env gdeps plugin fs)
      = [⟨pkg, s1, 1⟩, ⟨pkg, s2, 2⟩] := by
    rw [hparse]
    simp [List.filter, hsucc1, hsucc2]
  refine ⟨?_, ?_, hdne⟩
  · rw [hout2]
    dsimp only
    rw [h2, hfilter, hmeta0]
    simp [metaFold, depKey, assocSet]
  · rw [hout2]
    dsimp only
    rw [h1, hfilter, hdeps0]
    simp

/-- Installer environment for C10's witness: identity digest, installer
always succeeds. -/
def envC10 : PipEnv := ⟨fun s => s, fun _ _ => true⟩

/-- Manager state for C10's witness: one plugin declaring `liba` twice with
distinct specifiers. -/
def stC10 : MgrState := ⟨[("pluginA", ["liba==1", "liba==2"])], [], [], []⟩

/-- Witness for C10 at the concrete two-line declaration file
`liba==1` / `liba==2`. -/
theorem duplicate_package_last_line_wins_witness :
    lookupA "pluginA" stC10.plugins = some ["liba==1", "liba==2"] ∧
    parse_requirements ["liba==1", "liba==2"]
      = [⟨"liba", "liba==1", 1⟩, ⟨"liba", "liba==2", 2⟩] ∧
    ("liba==1" : String) ≠ "liba==2" ∧
    envC10.hash12 "liba==1" ≠ envC10.hash12 "liba==2" ∧
    (initialize_plugin_dependencies envC10 ["isolated_deps"] stC10 [] "pluginA").1.st.dependency_metadata
      = [("pluginA:liba",
          ⟨"liba", "liba==2", ["isolated_deps", "pluginA", "liba_liba==2"], "pluginA"⟩)] ∧
    (lookupA "pluginA"
        (initialize_plugin_dependencies envC10 ["isolated_deps"] stC10 [] "pluginA").1.st.installed_deps).getD []
      = [["isolated_deps", "pluginA", "liba_liba==1"], ["isolated_deps", "pluginA", "liba_liba==2"]] :=
  ⟨by decide, by decide, by decide, by decide,
   (duplicate_package_last_line_wins envC10 ["isolated_deps"] stC10 [] "pluginA"
      "liba" "liba==1" "liba==2" ["liba==1", "liba==2"] _ rfl (by decide) (by decide)
      (by decide) (by decide) (by decide) (by decide) (by decide) (by decide)).1,
   (duplicate_package_last_line_wins envC10 ["isolated_deps"] stC10 [] "pluginA"
      "liba" "liba==1" "liba==2" ["liba==1", "liba==2"] _ rfl (by decide) (by decide)
      (by decide) (by decide) (by decide) (by decide) (by decide) (by decide)).2.1⟩

end ComfyIso
